import Mathlib

/-!
Shallow embedding of `tensorflow_datasets/image/plant_leaves.py` (the
`PlantLeaves` dataset builder) and proofs about its observable behaviour.

Modelling notes, recorded next to each definition:
* Python `dict` values are modelled as ordered association lists with
  insert-or-overwrite semantics (Python dicts preserve insertion order and
  a duplicate key overwrites the value in place).
* The regex `^(\d\d\d\d)_.*\.JPG$` is compiled to an executable matcher with
  Python `re.match` semantics: `.` matches any character except a newline,
  and the `$` anchor matches at the end of the string or just before a
  single trailing newline. Python's `\d` also accepts non-ASCII Unicode
  digits; the matcher uses `Char.isDigit` (ASCII digits), which agrees with
  the source on every code that can be looked up in the label table, since
  all table keys are ASCII digit strings.
* The `while True` retry loop of `_split_generators` is modelled with an
  explicit fuel parameter; running out of fuel returns `none` ("the loop is
  still running after that many iterations"), so non-termination of the
  source loop is expressible as: every fuel value returns `none`.
-/

namespace PlantLeaves

/-- Embeds `_LABEL_MAPPING`: the ordered list of (4-digit code, label)
pairs, exactly as written in the source. -/
def LABEL_MAPPING : List (String × String) := [
  ("0014", "Alstonia Scholaris (P2) diseased"),
  ("0003", "Alstonia Scholaris (P2) healthy"),
  ("0013", "Arjun (P1) diseased"),
  ("0002", "Arjun (P1) healthy"),
  ("0016", "Bael (P4) diseased"),
  ("0008", "Basil (P8) healthy"),
  ("0022", "Chinar (P11) diseased"),
  ("0011", "Chinar (P11) healthy"),
  ("0015", "Gauva (P3) diseased"),
  ("0004", "Gauva (P3) healthy"),
  ("0017", "Jamun (P5) diseased"),
  ("0005", "Jamun (P5) healthy"),
  ("0018", "Jatropha (P6) diseased"),
  ("0006", "Jatropha (P6) healthy"),
  ("0021", "Lemon (P10) diseased"),
  ("0010", "Lemon (P10) healthy"),
  ("0012", "Mango (P0) diseased"),
  ("0001", "Mango (P0) healthy"),
  ("0020", "Pomegranate (P9) diseased"),
  ("0009", "Pomegranate (P9) healthy"),
  ("0019", "Pongamia Pinnata (P7) diseased"),
  ("0007", "Pongamia Pinnata (P7) healthy")]

/-- Embeds `_MAX_DOWNLOAD_RETRY = 10`. -/
def MAX_DOWNLOAD_RETRY : Nat := 10

/-- The label list declared in `_info`:
`labels = list(zip(*_LABEL_MAPPING))[1]`, i.e. the second components of the
mapping in order; these are the `ClassLabel` names. -/
def infoLabels : List String := LABEL_MAPPING.map Prod.snd

/-- Lookup in `label_map = {pattern: label for pattern, label in
_LABEL_MAPPING}`: since the codes are pairwise distinct, dict lookup is
first-match lookup in the association list. -/
def lookupLabel (code : String) : Option String :=
  (LABEL_MAPPING.find? (fun p => p.1 == code)).map Prod.snd

/-- Matcher for the part of the regex after the captured group and the
underscore: `.*\.JPG$` under Python `re` semantics. `matchTail cs = true`
iff `cs` splits as `mid ++ ".JPG" ++ tail` where `mid` contains no newline
(Python `.` does not match `\n`) and `tail` is empty or a single newline
(Python `$` also matches just before one trailing newline). -/
def matchTail : List Char → Bool
  | [] => false
  | c :: cs =>
    (c == '.' && (cs == ['J', 'P', 'G'] || cs == ['J', 'P', 'G', '\n'])) ||
      (c != '\n' && matchTail cs)

/-- Embeds `re.match("^(\d\d\d\d)_.*\.JPG$", fname)` on the character list
of `fname`, returning `match.group(1)` (the four digit characters) on
success. -/
def matchFname : List Char → Option String
  | d1 :: d2 :: d3 :: d4 :: u :: rest =>
    if d1.isDigit && d2.isDigit && d3.isDigit && d4.isDigit &&
        u == '_' && matchTail rest then
      some (String.mk [d1, d2, d3, d4])
    else none
  | _ => none

/-- `regexp.match(original_fname)` with the captured group, on `String`. -/
def matchFilename (s : String) : Option String := matchFname s.data

/-- The label-resolution step of `_generate_examples`:
`if match and match.group(1) in label_map: label_map[match.group(1)]`. -/
def resolveLabel (fname : String) : Option String :=
  match matchFilename fname with
  | some code => lookupLabel code
  | none => none

/-- The record yielded by `_generate_examples`:
`{"image": fpath, "image/filename": original_fname, "label": label}`. -/
structure Record where
  image : String
  filename : String
  label : String
  deriving DecidableEq

/-- Embeds `_generate_examples(image_files)`: iterate over the entries of
`image_files` (a Python dict, i.e. an ordered key-value list) and yield
`("{label}/{fname}", record)` for each filename that matches the regex and
whose code is in the label table. -/
def generateExamples : List (String × String) → List (String × Record)
  | [] => []
  | (fname, fpath) :: rest =>
    match matchFilename fname with
    | some code =>
      match lookupLabel code with
      | some label =>
        (label ++ "/" ++ fname, ⟨fpath, fname, label⟩) :: generateExamples rest
      | none => generateExamples rest
    | none => generateExamples rest

/-- The action of one iteration of the `_generate_examples` loop on a
single `(original_fname, fpath)` entry: `some (key, record)` when a record
is yielded for the entry, `none` when the entry is skipped. -/
def emitEntry (fp : String × String) : Option (String × Record) :=
  (resolveLabel fp.1).map fun label =>
    (label ++ "/" ++ fp.1, ⟨fp.2, fp.1, label⟩)

/-- Observable outcome of running the `while True` retry loop for a given
number of iterations: still looping, failure re-raised by the bare
`raise`, or a value produced. -/
inductive RunResult (α : Type) where
  | running : RunResult α
  | raised : RunResult α
  | done : α → RunResult α
  deriving DecidableEq

/-- One run of the `while True` retry loop in `_split_generators`.
`oracle n` is the outcome of the `(n+1)`-st call to `dl_manager.download`:
`some files` when it returns, `none` when it raises. The result is
`.running` when the loop has not exited after `fuel` iterations,
`.raised` when the bare `raise` re-raises, `.done files` on `break`. -/
def retryLoop (oracle : Nat → Option (List (String × String))) :
    Nat → Nat → Nat → RunResult (List (String × String))
  | 0, _, _ => RunResult.running
  | fuel + 1, attempt, retryCount =>
    match oracle attempt with
    | some files => RunResult.done files
    | none =>
      -- `++retry_count` in the source parses as `+(+retry_count)`, an
      -- expression statement whose value is discarded: the counter is
      -- left unchanged by the except-branch.
      let retryCount2 := retryCount
      if retryCount2 == MAX_DOWNLOAD_RETRY then RunResult.raised
      else retryLoop oracle fuel (attempt + 1) retryCount2

/-- The `tfds.core.SplitGenerator(name=tfds.Split.TRAIN, num_shards=1,
gen_kwargs={"image_files": image_files})` value built on success. -/
structure SplitGeneratorSpec where
  name : String
  numShards : Nat
  imageFiles : List (String × String)
  deriving DecidableEq

/-- The tail of `_split_generators`: run the retry loop (starting with
`retry_count = 0` before the first attempt) and on success wrap the
download result in the single TRAIN split generator. -/
def splitGeneratorsRun (oracle : Nat → Option (List (String × String)))
    (fuel : Nat) : RunResult (List SplitGeneratorSpec) :=
  match retryLoop oracle fuel 0 0 with
  | RunResult.running => RunResult.running
  | RunResult.raised => RunResult.raised
  | RunResult.done imageFiles => RunResult.done [⟨"train", 1, imageFiles⟩]

/-- `l.strip()` on a line of the URL file. Python strips a slightly larger
whitespace set than `String.trim`, but both agree on space, tab, CR and LF,
the characters at issue in a URL list file. -/
def stripLine (l : String) : String := l.trim

/-- `os.path.basename`: the final path segment, i.e. everything after the
last `/` (the whole string when there is no `/`). -/
def basename (s : String) : String := (s.splitOn "/").getLastD ""

/-- Insertion of one key-value pair into a Python dict modelled as an
ordered association list: a duplicate key overwrites the stored value in
place (keeping the key's original position), a fresh key is appended at
the end. -/
def dictInsert : List (String × String) → String → String →
    List (String × String)
  | [], k, v => [(k, v)]
  | p :: m, k, v =>
    if p.1 == k then (p.1, v) :: m else p :: dictInsert m k v

/-- Embeds the dict comprehension in `_split_generators`:
`{os.path.basename(l.strip()): l.strip() for l in f.readlines()}`,
evaluated left to right over the lines of the URL file. -/
def buildManifest (lines : List String) : List (String × String) :=
  lines.foldl (fun m l => dictInsert m (basename (stripLine l)) (stripLine l)) []

/-- Dict lookup in the modelled manifest (first — and, by the key
uniqueness invariant, only — entry with the given key). -/
def dictLookup (m : List (String × String)) (k : String) : Option String :=
  (m.find? (fun p => p.1 == k)).map Prod.snd

/-! ### Structural lemmas about `_generate_examples` -/

/-- The example generator is the entrywise `emitEntry` filter-map over the
input dict, in input order. -/
theorem generateExamples_eq_filterMap (files : List (String × String)) :
    generateExamples files = files.filterMap emitEntry := by
  induction files with
  | nil => rfl
  | cons fp rest ih =>
    obtain ⟨fname, fpath⟩ := fp
    rcases hm : matchFilename fname with _ | code
    · simp [generateExamples, List.filterMap_cons, emitEntry, resolveLabel, hm, ih]
    · rcases hl : lookupLabel code with _ | label
      · simp [generateExamples, List.filterMap_cons, emitEntry, resolveLabel, hm, hl, ih]
      · simp [generateExamples, List.filterMap_cons, emitEntry, resolveLabel, hm, hl, ih]

theorem generateExamples_append (xs ys : List (String × String)) :
    generateExamples (xs ++ ys) = generateExamples xs ++ generateExamples ys := by
  simp [generateExamples_eq_filterMap, List.filterMap_append]

theorem generateExamples_cons_none {fname : String} (h : resolveLabel fname = none)
    (p : String) (rest : List (String × String)) :
    generateExamples ((fname, p) :: rest) = generateExamples rest := by
  simp [generateExamples_eq_filterMap, List.filterMap_cons, emitEntry, h]

theorem generateExamples_cons_some {fname label : String}
    (h : resolveLabel fname = some label) (p : String) (rest : List (String × String)) :
    generateExamples ((fname, p) :: rest) =
      (label ++ "/" ++ fname, ⟨p, fname, label⟩) :: generateExamples rest := by
  simp [generateExamples_eq_filterMap, List.filterMap_cons, emitEntry, h]

/-- Any label produced by a successful table lookup is one of the `_info`
class names. -/
theorem lookupLabel_mem_infoLabels {code label : String}
    (h : lookupLabel code = some label) : label ∈ infoLabels := by
  unfold lookupLabel at h
  rw [Option.map_eq_some'] at h
  obtain ⟨q, hf, hq⟩ := h
  exact List.mem_map.mpr ⟨q, List.mem_of_find?_eq_some hf, hq⟩

theorem resolveLabel_mem_infoLabels {fname label : String}
    (h : resolveLabel fname = some label) : label ∈ infoLabels := by
  unfold resolveLabel at h
  rcases hm : matchFilename fname with _ | code <;> rw [hm] at h
  · cases h
  · exact lookupLabel_mem_infoLabels h

/-- None of the 22 labels contains a slash: checked by evaluation. -/
theorem infoLabels_slashFree : ∀ l ∈ infoLabels, ('/' : Char) ∉ l.data := by decide

/-- Cancellation around a separator that occurs in neither left part. -/
theorem append_slash_inj : ∀ (xs ys as bs : List Char), '/' ∉ xs → '/' ∉ ys →
    xs ++ '/' :: as = ys ++ '/' :: bs → xs = ys ∧ as = bs := by
  intro xs
  induction xs with
  | nil =>
    intro ys as bs _ hys h
    cases ys with
    | nil => simpa using h
    | cons y ys2 =>
      simp only [List.nil_append, List.cons_append, List.cons.injEq] at h
      exact absurd (h.1 ▸ List.mem_cons_self y ys2) hys
  | cons x xs2 ih =>
    intro ys as bs hxs hys h
    cases ys with
    | nil =>
      simp only [List.nil_append, List.cons_append, List.cons.injEq] at h
      exact absurd (h.1 ▸ List.mem_cons_self x xs2) hxs
    | cons y ys2 =>
      simp only [List.cons_append, List.cons.injEq] at h
      have hxs2 : '/' ∉ xs2 := fun hc => hxs (List.mem_cons_of_mem x hc)
      have hys2 : '/' ∉ ys2 := fun hc => hys (List.mem_cons_of_mem y hc)
      obtain ⟨h1, h2⟩ := ih ys2 as bs hxs2 hys2 h.2
      exact ⟨by rw [h.1, h1], h2⟩

/-- A `"label/filename"` key determines the filename when neither label
contains a slash. -/
theorem key_inj {l1 l2 f1 f2 : String} (h1 : ('/' : Char) ∉ l1.data)
    (h2 : ('/' : Char) ∉ l2.data)
    (h : l1 ++ "/" ++ f1 = l2 ++ "/" ++ f2) : l1 = l2 ∧ f1 = f2 := by
  have hd := congrArg String.data h
  simp only [String.data_append] at hd
  have hd2 : l1.data ++ '/' :: f1.data = l2.data ++ '/' :: f2.data := by
    simpa [List.append_assoc] using hd
  obtain ⟨ha, hb⟩ := append_slash_inj l1.data l2.data f1.data f2.data h1 h2 hd2
  exact ⟨String.ext ha, String.ext hb⟩

theorem generateExamples_length (files : List (String × String))
    (h : ∀ fp ∈ files, (resolveLabel fp.1).isSome) :
    (generateExamples files).length = files.length := by
  induction files with
  | nil => rfl
  | cons fp rest ih =>
    obtain ⟨fname, fpath⟩ := fp
    rw [List.forall_mem_cons] at h
    obtain ⟨label, hl⟩ := Option.isSome_iff_exists.mp h.1
    rw [generateExamples_cons_some hl]
    simp [ih h.2]

/-- Every key of the output is `label ++ "/" ++ fname` for some input
filename that resolves to that label. -/
theorem mem_keys_generateExamples {files : List (String × String)} {k : String}
    (h : k ∈ (generateExamples files).map Prod.fst) :
    ∃ fname label, fname ∈ files.map Prod.fst ∧ resolveLabel fname = some label ∧
      k = label ++ "/" ++ fname := by
  rw [generateExamples_eq_filterMap, List.mem_map] at h
  obtain ⟨⟨key, rec⟩, hmem, hk⟩ := h
  rw [List.mem_filterMap] at hmem
  obtain ⟨⟨fname, fpath⟩, hfp, hemit⟩ := hmem
  unfold emitEntry at hemit
  rw [Option.map_eq_some'] at hemit
  obtain ⟨label, hres, heq⟩ := hemit
  refine ⟨fname, label, List.mem_map.mpr ⟨_, hfp, rfl⟩, hres, ?_⟩
  rw [← hk]
  rw [← heq]

theorem generateExamples_keys_nodup (files : List (String × String))
    (h : ∀ fp ∈ files, (resolveLabel fp.1).isSome)
    (hnd : (files.map Prod.fst).Nodup) :
    ((generateExamples files).map Prod.fst).Nodup := by
  induction files with
  | nil => simp [generateExamples]
  | cons fp rest ih =>
    obtain ⟨fname, fpath⟩ := fp
    rw [List.forall_mem_cons] at h
    obtain ⟨label, hl⟩ := Option.isSome_iff_exists.mp h.1
    rw [List.map_cons, List.nodup_cons] at hnd
    rw [generateExamples_cons_some hl, List.map_cons, List.nodup_cons]
    refine ⟨?_, ih h.2 hnd.2⟩
    intro hkmem
    obtain ⟨fname2, label2, hmem2, hres2, hkeq⟩ := mem_keys_generateExamples hkmem
    have hsf1 : ('/' : Char) ∉ label.data :=
      infoLabels_slashFree _ (resolveLabel_mem_infoLabels hl)
    have hsf2 : ('/' : Char) ∉ label2.data :=
      infoLabels_slashFree _ (resolveLabel_mem_infoLabels hres2)
    obtain ⟨-, hff⟩ := key_inj hsf1 hsf2 hkeq
    exact hnd.1 (hff ▸ hmem2)

/-! ### The matcher on well-formed and ill-formed filenames -/

/-- `.*\.JPG$` accepts `mid ++ ".JPG" ++ tail` whenever `mid` is
newline-free and `tail` is empty or a single newline. -/
theorem matchTail_mid (mid : List Char) (hmid : '\n' ∉ mid) (tail : List Char)
    (htail : tail = [] ∨ tail = ['\n']) :
    matchTail (mid ++ '.' :: 'J' :: 'P' :: 'G' :: tail) = true := by
  induction mid with
  | nil => rcases htail with h | h <;> subst h <;> decide
  | cons c mid2 ih =>
    have hc : ¬('\n' = c) := fun hc => hmid (hc ▸ List.mem_cons_self c mid2)
    have hmid2 : '\n' ∉ mid2 := fun hc => hmid (List.mem_cons_of_mem c hc)
    have hne : (c != '\n') = true := by
      simp [bne_iff_ne]
      exact fun hc2 => hc hc2.symm
    rw [List.cons_append, matchTail, ih hmid2, hne]
    simp

theorem matchFname_wellformed (d1 d2 d3 d4 : Char) (h1 : d1.isDigit)
    (h2 : d2.isDigit) (h3 : d3.isDigit) (h4 : d4.isDigit)
    (mid : List Char) (hmid : '\n' ∉ mid) (tail : List Char)
    (htail : tail = [] ∨ tail = ['\n']) :
    matchFname (d1 :: d2 :: d3 :: d4 :: '_' :: (mid ++ '.' :: 'J' :: 'P' :: 'G' :: tail)) =
      some (String.mk [d1, d2, d3, d4]) := by
  rw [matchFname, matchTail_mid mid hmid tail htail]
  simp [h1, h2, h3, h4]

theorem matchFilename_wellformed (d1 d2 d3 d4 : Char) (h1 : d1.isDigit)
    (h2 : d2.isDigit) (h3 : d3.isDigit) (h4 : d4.isDigit)
    (mid : String) (hmid : '\n' ∉ mid.data) :
    matchFilename (String.mk [d1, d2, d3, d4] ++ "_" ++ mid ++ ".JPG") =
      some (String.mk [d1, d2, d3, d4]) := by
  unfold matchFilename
  have hdata : (String.mk [d1, d2, d3, d4] ++ "_" ++ mid ++ ".JPG").data =
      d1 :: d2 :: d3 :: d4 :: '_' :: (mid.data ++ '.' :: 'J' :: 'P' :: 'G' :: []) := by
    simp [String.data_append]
  rw [hdata]
  exact matchFname_wellformed d1 d2 d3 d4 h1 h2 h3 h4 mid.data hmid [] (Or.inl rfl)

theorem matchFilename_wellformed_newline (d1 d2 d3 d4 : Char) (h1 : d1.isDigit)
    (h2 : d2.isDigit) (h3 : d3.isDigit) (h4 : d4.isDigit)
    (mid : String) (hmid : '\n' ∉ mid.data) :
    matchFilename (String.mk [d1, d2, d3, d4] ++ "_" ++ mid ++ ".JPG" ++ "\n") =
      some (String.mk [d1, d2, d3, d4]) := by
  unfold matchFilename
  have hdata : (String.mk [d1, d2, d3, d4] ++ "_" ++ mid ++ ".JPG" ++ "\n").data =
      d1 :: d2 :: d3 :: d4 :: '_' :: (mid.data ++ '.' :: 'J' :: 'P' :: 'G' :: ['\n']) := by
    simp [String.data_append]
  rw [hdata]
  exact matchFname_wellformed d1 d2 d3 d4 h1 h2 h3 h4 mid.data hmid ['\n'] (Or.inr rfl)

/-- `.*\.JPG$` rejects every string whose last character is neither `G`
nor a newline. -/
theorem matchTail_getLast_ne : ∀ (cs : List Char) (c : Char),
    cs.getLast? = some c → c ≠ 'G' → c ≠ '\n' → matchTail cs = false := by
  intro cs
  induction cs with
  | nil => intro c h; simp at h
  | cons c0 cs2 ih =>
    intro c hl hG hn
    by_cases hcs : cs2 = []
    · subst hcs
      simp [matchTail]
    · have e : c0 :: cs2 = [c0] ++ cs2 := rfl
      rw [e, List.getLast?_append_of_ne_nil _ hcs] at hl
      have d1 : (cs2 == ['J', 'P', 'G']) = false := by
        rw [beq_eq_false_iff_ne]
        intro he
        rw [he] at hl
        exact hG (by simpa using hl.symm)
      have d2 : (cs2 == ['J', 'P', 'G', '\n']) = false := by
        rw [beq_eq_false_iff_ne]
        intro he
        rw [he] at hl
        exact hn (by simpa using hl.symm)
      rw [matchTail, ih c hl hG hn, d1, d2]
      simp

theorem matchFname_getLast_ne (cs : List Char) (c : Char)
    (hl : cs.getLast? = some c) (hG : c ≠ 'G') (hn : c ≠ '\n') :
    matchFname cs = none := by
  rcases cs with _ | ⟨d1, _ | ⟨d2, _ | ⟨d3, _ | ⟨d4, _ | ⟨u, rest⟩⟩⟩⟩⟩
  · rfl
  · rfl
  · rfl
  · rfl
  · rfl
  · by_cases hr : rest = []
    · subst hr
      simp [matchFname, matchTail]
    · have e : d1 :: d2 :: d3 :: d4 :: u :: rest = [d1, d2, d3, d4, u] ++ rest := rfl
      rw [e, List.getLast?_append_of_ne_nil _ hr] at hl
      rw [matchFname, matchTail_getLast_ne rest c hl hG hn]
      simp

/-- The case-sensitive pattern rejects every filename ending in the
lowercase `.jpg`. -/
theorem matchFilename_lowercase (stem : String) :
    matchFilename (stem ++ ".jpg") = none := by
  unfold matchFilename
  apply matchFname_getLast_ne _ 'g'
  · rw [String.data_append, List.getLast?_append_of_ne_nil]
    · rfl
    · decide
  · decide
  · decide

/-! ### The retry loop -/

/-- Because `++retry_count` never changes the counter, an always-failing
download oracle keeps the loop running for ever (no iteration bound, no
re-raise). -/
theorem retryLoop_allFail (fuel : Nat) : ∀ attempt : Nat,
    retryLoop (fun _ => none) fuel attempt 0 = RunResult.running := by
  induction fuel with
  | zero => intro attempt; rfl
  | succ fuel ih =>
    intro attempt
    rw [retryLoop]
    simpa [MAX_DOWNLOAD_RETRY] using ih (attempt + 1)

/-- Once the loop has exited, giving it more fuel does not change the
result. -/
theorem retryLoop_mono (oracle : Nat → Option (List (String × String)))
    (fuel k : Nat) : ∀ (attempt c : Nat) (r : RunResult (List (String × String))),
    retryLoop oracle fuel attempt c = r → r ≠ RunResult.running →
    retryLoop oracle (fuel + k) attempt c = r := by
  induction fuel with
  | zero =>
    intro attempt c r h hr
    exact absurd h.symm hr
  | succ fuel ih =>
    intro attempt c r h hr
    have hk : fuel + 1 + k = fuel + k + 1 := by omega
    rw [hk]
    rcases ho : oracle attempt with _ | files
    · rw [retryLoop, ho] at h ⊢
      by_cases hc : c = MAX_DOWNLOAD_RETRY
      · rw [if_pos (by simpa using hc)] at h ⊢
        exact h
      · rw [if_neg (by simpa using hc)] at h ⊢
        exact ih (attempt + 1) c r h hr
    · rw [retryLoop, ho] at h ⊢
      exact h

/-- If the oracle fails on the `k` attempts starting at `attempt` and
succeeds on the next one, the loop (entered with `retry_count = 0`)
returns the successful download within `k + 1` iterations. -/
theorem retryLoop_succeeds (oracle : Nat → Option (List (String × String)))
    (files : List (String × String)) : ∀ (k attempt : Nat),
    (∀ i, i < k → oracle (attempt + i) = none) → oracle (attempt + k) = some files →
    retryLoop oracle (k + 1) attempt 0 = RunResult.done files := by
  intro k
  induction k with
  | zero =>
    intro attempt _ hs
    have hs2 : oracle attempt = some files := by simpa using hs
    rw [retryLoop, hs2]
  | succ k ih =>
    intro attempt hf hs
    have h0 : oracle attempt = none := by simpa using hf 0 (by omega)
    rw [retryLoop, h0]
    have hrec : retryLoop oracle (k + 1) (attempt + 1) 0 = RunResult.done files := by
      apply ih
      · intro i hi
        have e : attempt + 1 + i = attempt + (i + 1) := by omega
        rw [e]
        exact hf (i + 1) (by omega)
      · have e : attempt + 1 + k = attempt + (k + 1) := by omega
        rw [e]
        exact hs
    simpa [MAX_DOWNLOAD_RETRY] using hrec

/-! ### The URL manifest dict -/

theorem dictLookup_cons (x : String × String) (m : List (String × String))
    (k : String) :
    dictLookup (x :: m) k = if x.1 = k then some x.2 else dictLookup m k := by
  unfold dictLookup
  by_cases h : x.1 = k
  · have hb : (x.1 == k) = true := by simpa using h
    simp [List.find?_cons, hb, h]
  · have hb : (x.1 == k) = false := by simpa using h
    simp [List.find?_cons, hb, h]

/-- Dict insertion updates exactly the inserted key. -/
theorem dictLookup_dictInsert (m : List (String × String)) (k v k2 : String) :
    dictLookup (dictInsert m k v) k2 = if k2 = k then some v else dictLookup m k2 := by
  induction m with
  | nil =>
    rw [dictInsert, dictLookup_cons]
    by_cases h : k2 = k
    · simp [h, dictLookup]
    · simp [h, Ne.symm h, dictLookup]
  | cons p m2 ih =>
    by_cases hpk : p.1 = k
    · rw [dictInsert, if_pos (by simpa using hpk), dictLookup_cons, dictLookup_cons]
      by_cases hk2 : k2 = k
      · simp [hpk, hk2]
      · have hp2 : ¬(p.1 = k2) := fun h2 => hk2 (h2.symm.trans hpk)
        simp [hp2, hk2]
    · rw [dictInsert, if_neg (by simpa using hpk), dictLookup_cons, dictLookup_cons, ih]
      by_cases hp2 : p.1 = k2
      · have hk2 : ¬(k2 = k) := fun h2 => hpk (hp2.trans h2)
        simp [hp2, hk2]
      · simp [hp2]

theorem mem_keys_dictInsert (m : List (String × String)) (k v a : String)
    (h : a ∈ (dictInsert m k v).map Prod.fst) : a = k ∨ a ∈ m.map Prod.fst := by
  induction m with
  | nil =>
    rw [dictInsert] at h
    simp at h
    exact Or.inl h
  | cons p m2 ih =>
    by_cases hpk : p.1 = k
    · rw [dictInsert, if_pos (by simpa using hpk)] at h
      rw [List.map_cons, List.mem_cons] at h
      rcases h with h2 | h2
      · right; rw [List.map_cons, List.mem_cons]; exact Or.inl h2
      · right; rw [List.map_cons, List.mem_cons]; exact Or.inr h2
    · rw [dictInsert, if_neg (by simpa using hpk)] at h
      rw [List.map_cons, List.mem_cons] at h
      rcases h with h2 | h2
      · right; rw [List.map_cons, List.mem_cons]; exact Or.inl h2
      · rcases ih h2 with h3 | h3
        · exact Or.inl h3
        · right; rw [List.map_cons, List.mem_cons]; exact Or.inr h3

theorem keys_nodup_dictInsert (m : List (String × String)) (k v : String)
    (h : (m.map Prod.fst).Nodup) : ((dictInsert m k v).map Prod.fst).Nodup := by
  induction m with
  | nil => simp [dictInsert]
  | cons p m2 ih =>
    rw [List.map_cons, List.nodup_cons] at h
    by_cases hpk : p.1 = k
    · rw [dictInsert, if_pos (by simpa using hpk), List.map_cons, List.nodup_cons]
      exact ⟨h.1, h.2⟩
    · rw [dictInsert, if_neg (by simpa using hpk), List.map_cons, List.nodup_cons]
      refine ⟨?_, ih h.2⟩
      intro hmem
      rcases mem_keys_dictInsert m2 k v p.1 hmem with h2 | h2
      · exact hpk h2
      · exact h.1 h2

/-- Lookup in the folded-up manifest: the value is the last processed line
with the given basename, falling back to the accumulator. -/
theorem buildManifest_foldl_lookup (lines : List String) :
    ∀ (m : List (String × String)) (k : String),
      dictLookup
          (lines.foldl (fun m l => dictInsert m (basename (stripLine l)) (stripLine l)) m) k =
        match lines.reverse.find? (fun l => basename (stripLine l) == k) with
        | some l => some (stripLine l)
        | none => dictLookup m k := by
  induction lines with
  | nil => intro m k; rfl
  | cons l rest ih =>
    intro m k
    rw [List.foldl_cons, ih, List.reverse_cons, List.find?_append]
    rcases hfind : rest.reverse.find? (fun l => basename (stripLine l) == k) with _ | l2
    · rw [Option.none_or, dictLookup_dictInsert]
      by_cases hp : basename (stripLine l) = k
      · have hb : (basename (stripLine l) == k) = true := by simpa using hp
        have hp2 : k = basename (stripLine l) := hp.symm
        simp [List.find?_cons, hb, ← hp2]
      · have hb : (basename (stripLine l) == k) = false := by simpa using hp
        have hp2 : ¬(k = basename (stripLine l)) := fun h2 => hp h2.symm
        simp [List.find?_cons, hb, hp2]
    · rfl

/-! ### Claims -/

/-- Claim C1 (code bug, theorem evaluating the code at the failing input):
because `++retry_count` never advances the counter, a download that raises
on every attempt is retried for ever — the failure is never re-raised
(first conjunct: for every iteration bound the loop is still running), and
in particular an 11th call to `dl_manager.download` is made and its result
is used after 10 consecutive failures (second conjunct). -/
theorem splitGenerators_unbounded_retry :
    (∀ fuel, splitGeneratorsRun (fun _ => none) fuel = RunResult.running) ∧
      splitGeneratorsRun
          (fun i => if i = 10 then some [("0001_leaf.JPG", "p")] else none) 11 =
        RunResult.done [⟨"train", 1, [("0001_leaf.JPG", "p")]⟩] := by
  constructor
  · intro fuel
    unfold splitGeneratorsRun
    rw [retryLoop_allFail]
  · decide

/-- Claim C2: if `dl_manager.download` fails on the first nine attempts and
succeeds on the tenth, `_split_generators` stops retrying (more fuel does
not change the outcome) and wraps the successful download result in the
single TRAIN split generator, surfacing no failure. -/
theorem splitGenerators_success_after_nine_failures
    (oracle : Nat → Option (List (String × String)))
    (files : List (String × String))
    (hfail : ∀ i, i < 9 → oracle i = none) (hsucc : oracle 9 = some files) :
    splitGeneratorsRun oracle 10 = RunResult.done [⟨"train", 1, files⟩] ∧
      ∀ extra, splitGeneratorsRun oracle (10 + extra) =
        RunResult.done [⟨"train", 1, files⟩] := by
  have hloop : retryLoop oracle 10 0 0 = RunResult.done files := by
    have h9 := retryLoop_succeeds oracle files 9 0
      (by intro i hi; simpa using hfail i hi) (by simpa using hsucc)
    simpa using h9
  constructor
  · unfold splitGeneratorsRun
    rw [hloop]
  · intro extra
    unfold splitGeneratorsRun
    rw [retryLoop_mono oracle 10 extra 0 0 _ hloop (by simp)]

theorem splitGenerators_success_after_nine_failures_witness :
    splitGeneratorsRun (fun i => if i = 9 then some [("a.JPG", "p")] else none) 10 =
      RunResult.done [⟨"train", 1, [("a.JPG", "p")]⟩] :=
  (splitGenerators_success_after_nine_failures
    (fun i => if i = 9 then some [("a.JPG", "p")] else none) [("a.JPG", "p")]
    (by decide) (by decide)).1

/-- Claim C3, corrected (the middle characters must additionally contain no
newline, as forced by the counterexample below): every filename of the form
four digits, underscore, newline-free middle, literal `.JPG`, whose 4-digit
code is a key of the label table, makes `_generate_examples` emit exactly
one record for that entry, whose label is the label mapped to the code. -/
theorem match_emits_mapped_label (d1 d2 d3 d4 : Char) (mid f p lab : String)
    (pre post : List (String × String))
    (h1 : d1.isDigit) (h2 : d2.isDigit) (h3 : d3.isDigit) (h4 : d4.isDigit)
    (hmid : '\n' ∉ mid.data)
    (hf : f = String.mk [d1, d2, d3, d4] ++ "_" ++ mid ++ ".JPG")
    (hlab : lookupLabel (String.mk [d1, d2, d3, d4]) = some lab) :
    generateExamples (pre ++ (f, p) :: post) =
      generateExamples pre ++ (lab ++ "/" ++ f, ⟨p, f, lab⟩) :: generateExamples post := by
  subst hf
  have hres : resolveLabel (String.mk [d1, d2, d3, d4] ++ "_" ++ mid ++ ".JPG") = some lab := by
    unfold resolveLabel
    rw [matchFilename_wellformed d1 d2 d3 d4 h1 h2 h3 h4 mid hmid]
    exact hlab
  rw [generateExamples_append, generateExamples_cons_some hres]

theorem match_emits_mapped_label_witness :
    generateExamples ([] ++ ("0001_leaf.JPG", "p1") :: []) =
      generateExamples [] ++
        ("Mango (P0) healthy" ++ "/" ++ "0001_leaf.JPG",
          ⟨"p1", "0001_leaf.JPG", "Mango (P0) healthy"⟩) :: generateExamples [] :=
  match_emits_mapped_label '0' '0' '0' '1' "leaf" "0001_leaf.JPG" "p1"
    "Mango (P0) healthy" [] [] (by decide) (by decide) (by decide) (by decide)
    (by decide) (by decide) (by decide)

/-- Claim C3, counterexample to the claim as stated: `"0001_a\nb.JPG"` is
four digit characters, an underscore, arbitrary characters and the literal
suffix `.JPG`, and its code `0001` is in the label table, yet
`_generate_examples` emits no record for it (Python `.` does not match a
newline). -/
theorem match_emits_mapped_label_counterexample :
    ("0001_a\nb.JPG" : String) = String.mk ['0', '0', '0', '1'] ++ "_" ++ "a\nb" ++ ".JPG" ∧
      lookupLabel "0001" = some "Mango (P0) healthy" ∧
      generateExamples [("0001_a\nb.JPG", "p")] = [] :=
  ⟨by decide, by decide, by decide⟩

/-- Claim C4: an entry whose filename does not match the pattern, or whose
code is absent from the label table, is silently skipped: the generator's
output on any dict containing it equals its output with the entry removed
(no record for the entry, no exception, iteration continues). -/
theorem unmatched_entry_skipped (fname p : String)
    (pre post : List (String × String))
    (h : matchFilename fname = none ∨
      ∃ code, matchFilename fname = some code ∧ lookupLabel code = none) :
    generateExamples (pre ++ (fname, p) :: post) = generateExamples (pre ++ post) := by
  have hres : resolveLabel fname = none := by
    unfold resolveLabel
    rcases h with h | ⟨code, hm, hl⟩
    · rw [h]
    · rw [hm]
      exact hl
  rw [generateExamples_append, generateExamples_cons_none hres,
    ← generateExamples_append]

theorem unmatched_entry_skipped_witness :
    generateExamples ([("0001_leaf.JPG", "p1")] ++ ("0099_leaf.JPG", "p2") :: []) =
      generateExamples ([("0001_leaf.JPG", "p1")] ++ []) :=
  unmatched_entry_skipped "0099_leaf.JPG" "p2" [("0001_leaf.JPG", "p1")] []
    (Or.inr ⟨"0099", by decide, by decide⟩)

/-- Claim C5: on an input dict with pairwise-distinct basenames, each
matching the pattern with a code present in the table (the codes pairwise
distinct), `_generate_examples` yields exactly one record per entry and
the keys `label/filename` are pairwise distinct; and on the concrete
manifest of the claim, exactly one record is yielded, with key
`Mango (P0) healthy/0001_leaf.JPG`. -/
theorem distinct_matching_inputs_distinct_keys (files : List (String × String))
    (p1 p2 : String) :
    ((files.map Prod.fst).Nodup →
      (∀ fp ∈ files, (resolveLabel fp.1).isSome) →
      (files.filterMap (fun fp => matchFilename fp.1)).Nodup →
      (generateExamples files).length = files.length ∧
        ((generateExamples files).map Prod.fst).Nodup) ∧
      generateExamples [("0001_leaf.JPG", p1), ("0099_leaf.JPG", p2)] =
        [("Mango (P0) healthy/0001_leaf.JPG",
          ⟨p1, "0001_leaf.JPG", "Mango (P0) healthy"⟩)] := by
  constructor
  · intro hnd hres _
    exact ⟨generateExamples_length files hres,
      generateExamples_keys_nodup files hres hnd⟩
  · rfl

theorem distinct_matching_inputs_distinct_keys_witness :
    (generateExamples [("0001_leaf.JPG", "p"), ("0002_x.JPG", "q")]).length =
        ([("0001_leaf.JPG", "p"), ("0002_x.JPG", "q")] : List (String × String)).length ∧
      ((generateExamples [("0001_leaf.JPG", "p"), ("0002_x.JPG", "q")]).map Prod.fst).Nodup :=
  (distinct_matching_inputs_distinct_keys
    [("0001_leaf.JPG", "p"), ("0002_x.JPG", "q")] "a" "b").1
    (by decide) (by decide) (by decide)

/-- Claim C6: a filename ending in the lowercase `.jpg` never yields a
record, because the `.JPG` suffix of the pattern is matched
case-sensitively; in particular `0001_leaf.jpg` yields nothing. -/
theorem lowercase_extension_no_record (stem p q : String)
    (pre post : List (String × String)) :
    generateExamples (pre ++ (stem ++ ".jpg", p) :: post) =
        generateExamples (pre ++ post) ∧
      generateExamples [("0001_leaf.jpg", q)] = [] := by
  have hres : resolveLabel (stem ++ ".jpg") = none := by
    unfold resolveLabel
    rw [matchFilename_lowercase]
  refine ⟨?_, rfl⟩
  rw [generateExamples_append, generateExamples_cons_none hres,
    ← generateExamples_append]

/-- Claim C7: the label table has exactly 22 entries, its 4-character
numeric codes are pairwise distinct, its labels are pairwise distinct, the
`ClassLabel` names of `_info` are exactly its labels, and every label
emitted by `_generate_examples` is one of them. -/
theorem label_table_invariants :
    LABEL_MAPPING.length = 22 ∧
      (LABEL_MAPPING.map Prod.fst).Nodup ∧
      (LABEL_MAPPING.map Prod.snd).Nodup ∧
      LABEL_MAPPING.all (fun q => q.1.length == 4 && q.1.data.all Char.isDigit) = true ∧
      infoLabels = LABEL_MAPPING.map Prod.snd ∧
      ∀ (files : List (String × String)) (k : String) (r : Record),
        (k, r) ∈ generateExamples files → r.label ∈ infoLabels := by
  refine ⟨by decide, by decide, by decide, by decide, rfl, ?_⟩
  intro files k r hmem
  rw [generateExamples_eq_filterMap, List.mem_filterMap] at hmem
  obtain ⟨⟨fname, fpath⟩, -, hemit⟩ := hmem
  unfold emitEntry at hemit
  rw [Option.map_eq_some'] at hemit
  obtain ⟨label, hres, heq⟩ := hemit
  have hr : r.label = label := by
    cases heq
    rfl
  rw [hr]
  exact resolveLabel_mem_infoLabels hres

theorem label_table_invariants_witness :
    ("Mango (P0) healthy" : String) ∈ infoLabels :=
  label_table_invariants.2.2.2.2.2 [("0001_leaf.JPG", "p")]
    "Mango (P0) healthy/0001_leaf.JPG"
    ⟨"p", "0001_leaf.JPG", "Mango (P0) healthy"⟩ (by decide)

/-- Claim C8, corrected (the middle characters must additionally contain
no newline, as forced by the counterexample below): the anchored `$` of
the Python regex also matches just before a single trailing newline, so a
filename of the form four digits, underscore, newline-free middle,
`.JPG`, then exactly one newline, with its code in the table, still makes
`_generate_examples` emit a record. -/
theorem trailing_newline_still_matches (d1 d2 d3 d4 : Char) (mid f p lab : String)
    (pre post : List (String × String))
    (h1 : d1.isDigit) (h2 : d2.isDigit) (h3 : d3.isDigit) (h4 : d4.isDigit)
    (hmid : '\n' ∉ mid.data)
    (hf : f = String.mk [d1, d2, d3, d4] ++ "_" ++ mid ++ ".JPG" ++ "\n")
    (hlab : lookupLabel (String.mk [d1, d2, d3, d4]) = some lab) :
    generateExamples (pre ++ (f, p) :: post) =
      generateExamples pre ++ (lab ++ "/" ++ f, ⟨p, f, lab⟩) :: generateExamples post := by
  subst hf
  have hres : resolveLabel (String.mk [d1, d2, d3, d4] ++ "_" ++ mid ++ ".JPG" ++ "\n") =
      some lab := by
    unfold resolveLabel
    rw [matchFilename_wellformed_newline d1 d2 d3 d4 h1 h2 h3 h4 mid hmid]
    exact hlab
  rw [generateExamples_append, generateExamples_cons_some hres]

theorem trailing_newline_still_matches_witness :
    generateExamples ([] ++ ("0001_leaf.JPG\n", "p1") :: []) =
      generateExamples [] ++
        ("Mango (P0) healthy" ++ "/" ++ "0001_leaf.JPG\n",
          ⟨"p1", "0001_leaf.JPG\n", "Mango (P0) healthy"⟩) :: generateExamples [] :=
  trailing_newline_still_matches '0' '0' '0' '1' "leaf" "0001_leaf.JPG\n" "p1"
    "Mango (P0) healthy" [] [] (by decide) (by decide) (by decide) (by decide)
    (by decide) (by decide) (by decide)

/-- Claim C8, counterexample to the claim as stated: `"0001_a\nb.JPG\n"`
is four digits, underscore, arbitrary characters, `.JPG` and exactly one
trailing newline, with code `0001` in the table, yet no record is emitted
(the middle characters may not contain a newline). -/
theorem trailing_newline_counterexample :
    ("0001_a\nb.JPG\n" : String) =
        String.mk ['0', '0', '0', '1'] ++ "_" ++ "a\nb" ++ ".JPG" ++ "\n" ∧
      lookupLabel "0001" = some "Mango (P0) healthy" ∧
      generateExamples [("0001_a\nb.JPG\n", "p")] = [] :=
  ⟨by decide, by decide, by decide⟩

/-- Claim C9: building the URL manifest never fails on duplicate
basenames: the resulting dict has pairwise-distinct keys, and each
basename maps to the stripped URL of the last line of the file whose
basename it is. -/
theorem manifest_last_wins (lines : List String) :
    ((buildManifest lines).map Prod.fst).Nodup ∧
      ∀ k, dictLookup (buildManifest lines) k =
        (lines.reverse.find? (fun l => basename (stripLine l) == k)).map stripLine := by
  constructor
  · have aux : ∀ (ls : List String) (m : List (String × String)),
        (m.map Prod.fst).Nodup →
        ((ls.foldl (fun m l => dictInsert m (basename (stripLine l)) (stripLine l)) m).map
            Prod.fst).Nodup := by
      intro ls
      induction ls with
      | nil => intro m h; exact h
      | cons l rest ih =>
        intro m h
        exact ih _ (keys_nodup_dictInsert _ _ _ h)
    exact aux lines [] (by simp)
  · intro k
    unfold buildManifest
    rw [buildManifest_foldl_lookup]
    rcases hf : lines.reverse.find? (fun l => basename (stripLine l) == k) with _ | l2
    · simp [hf, dictLookup]
    · simp [hf]

/-- Claim C10: `_generate_examples` is deterministic — equal input dicts
(same entries in the same iteration order) produce equal output sequences,
and the output is the entrywise filter-map of the input in input order. -/
theorem generateExamples_deterministic (files1 files2 : List (String × String))
    (h : files1 = files2) :
    generateExamples files1 = generateExamples files2 ∧
      generateExamples files1 = files1.filterMap emitEntry :=
  ⟨by rw [h], generateExamples_eq_filterMap files1⟩

theorem generateExamples_deterministic_witness :
    generateExamples [("0001_leaf.JPG", "p")] = generateExamples [("0001_leaf.JPG", "p")] ∧
      generateExamples [("0001_leaf.JPG", "p")] =
        [("0001_leaf.JPG", "p")].filterMap emitEntry :=
  generateExamples_deterministic [("0001_leaf.JPG", "p")] [("0001_leaf.JPG", "p")] rfl

end PlantLeaves
